import Mathlib

/-!
Verification development for the flathub merge action (merge.py).

Python strings are embedded as lists of characters (`Str`). Each
side-effecting function of the source is embedded as a pure function over
an explicit environment describing the answers of the external world
(GitHub REST and GraphQL services, the git subprocess, the filesystem);
exceptions that the source catches are modelled by the corresponding
branch, exceptions that the source does not catch are modelled with
`Except` (a `.error` value stands for an uncaught exception escaping the
function).
-/

set_option maxRecDepth 4096

abbrev Str := List Char

/-- Character class of the Python regex class [a-fA-F0-9]. -/
def isHexChar (c : Char) : Bool :=
  ('0' ≤ c && c ≤ '9') || ('a' ≤ c && c ≤ 'f') || ('A' ≤ c && c ≤ 'F')

/-- Character class of the regex class [\w.-] (ASCII fragment of \w). -/
def isBranchChar (c : Char) : Bool :=
  c.isAlphanum || c = '_' || c = '.' || c = '-'

/-- Character class of the regex class [a-zA-Z0-9-] used for usernames. -/
def isUserChar (c : Char) : Bool :=
  c.isAlphanum || c = '-'

/-- Python str.startswith. -/
def startsWith (p s : Str) : Bool :=
  decide (s.take p.length = p)

/-- Match a literal at the front of `s`, returning the remainder. -/
def dropLit : Str → Str → Option Str
  | [], s => some s
  | _ :: _, [] => none
  | p :: ps, c :: cs => if p = c then dropLit ps cs else none

def mergeLit : Str := "/merge".toList

def headEqLit : Str := " head=".toList

/-- The optional regex group (?::([\w.-]+))? directly after "/merge".
If a colon follows, the group must match (one or more branch characters,
greedily, the following literal " head=" cannot consume them); otherwise
the group is skipped. Returns the captured group and the remainder. -/
def matchAfterMerge : Str → Option (Option Str × Str)
  | ':' :: t =>
    match t.takeWhile isBranchChar with
    | [] => none
    | run => some (some run, t.drop run.length)
  | s => some (none, s)

/-- The trailing regex fragment (.*)$ without MULTILINE or DOTALL:
dot does not match a newline and $ matches at the end of the string or
just before one final trailing newline. -/
def matchDollarTail (r : Str) : Option Str :=
  if r.contains '\n' = false then some r
  else if r.getLast? = some '\n' && (r.dropLast.contains '\n' = false) then
    some r.dropLast
  else none

/-- re.findall of @[a-zA-Z0-9-]{1,39} with the leading @ stripped from
each match, fuelled by the length of the scanned text: the scan advances
by at least one character per step, matches are non-overlapping and the
quantifier is greedy with an upper bound of 39. -/
def findCollabsAux : Nat → Str → List Str
  | 0, _ => []
  | _ + 1, [] => []
  | fuel + 1, c :: rest =>
    if c = '@' then
      match (rest.takeWhile isUserChar).take 39 with
      | [] => findCollabsAux fuel rest
      | m => m :: findCollabsAux fuel (rest.drop m.length)
    else findCollabsAux fuel rest

def findCollabs (s : Str) : List Str :=
  findCollabsAux s.length s

/-- The regex fragment ([a-fA-F0-9]{40}): exactly forty hexadecimal
characters, greedily; further hexadecimal characters are left to the
following (.*) group. -/
def takeHex40 (s : Str) : Option (Str × Str) :=
  if (s.take 40).length = 40 ∧ (s.take 40).all isHexChar then
    some (s.take 40, s.drop 40)
  else none

/-- Full match of the regex
^/merge(?::([\w.-]+))? head=([a-fA-F0-9]{40})(.*)$
against the whole comment (search with an anchored pattern and no
MULTILINE flag can only match at position 0). Returns the three groups. -/
def matchMergeRegex (c : Str) : Option (Option Str × Str × Str) :=
  (dropLit mergeLit c).bind fun s1 =>
    (matchAfterMerge s1).bind fun g1s2 =>
      (dropLit headEqLit g1s2.2).bind fun s3 =>
        (takeHex40 s3).bind fun shaRest =>
          (matchDollarTail shaRest.2).map fun g3 => (g1s2.1, shaRest.1, g3)

def masterLit : Str := "master".toList

def betaLit : Str := "beta".toList

/-- parse_merge_command of merge.py: returns the target branch, the
approved head SHA and the extra collaborator logins, or three `none` on
any failure. -/
def parse_merge_command (c : Str) :
    Option Str × Option Str × Option (List Str) :=
  if startsWith mergeLit c = false then (none, none, none)
  else
    match matchMergeRegex c with
    | none => (none, none, none)
    | some (g1, sha, g3) =>
      let branch_match := g1.getD masterLit
      let target :=
        if branch_match = masterLit ∨ branch_match = betaLit then branch_match
        else "branch/".toList ++ branch_match
      (some target, some sha, some (findCollabs g3))

/-! ## Manifest reading and appid detection -/

/-- File extension of a candidate manifest file, as selected by the three
globs of detect_appid ( *.yml, *.yaml, *.json ). -/
inductive FileExt
  | yml
  | yaml
  | json
deriving DecidableEq

def extChars : FileExt → Str
  | .yml => "yml".toList
  | .yaml => "yaml".toList
  | .json => "json".toList

/-- A parsed Python manifest value: whether it is a dict, and the values
of its "app-id" and "id" keys when present (string values; `some []` is
the empty string, which is falsy in Python). -/
structure Manifest where
  isDict : Bool
  appId : Option Str
  idField : Option Str
deriving DecidableEq

/-- A candidate manifest file: its base name is `stem ++ "." ++ ext`.
`parse` is the outcome of parsing it with its serialization family
(`none` models the family parser raising: GLib.Error for JSON,
yaml.YAMLError for YAML). -/
structure ManifestFile where
  stem : Str
  ext : FileExt
  parse : Option Manifest
deriving DecidableEq

def baseName (f : ManifestFile) : Str :=
  f.stem ++ '.' :: extChars f.ext

/-- An uncaught Python exception escaping the scan. -/
inductive Crash
  | typeError
deriving DecidableEq

def emptyDict : Manifest := ⟨true, none, none⟩

/-- read_yaml_flatpak_manifest: a yaml.YAMLError is caught and logged and
the empty dict is returned. -/
def read_yaml_flatpak_manifest (f : ManifestFile) : Manifest :=
  match f.parse with
  | some m => m
  | none => emptyDict

/-- read_json_flatpak_manifest: a GLib.Error from parser.load_from_file
is caught and logged, but the function then unconditionally evaluates
Json.to_string(parser.get_root(), False); after a failed load the parser
has no root, get_root() yields None, and passing None where a JsonNode is
required raises an uncaught TypeError (and even if a null node were
accepted, json.loads(None) raises TypeError as well). -/
def read_json_flatpak_manifest (f : ManifestFile) : Except Crash Manifest :=
  match f.parse with
  | some m => .ok m
  | none => .error .typeError

/-- read_flatpak_manifest: dispatch on the file extension. -/
def read_flatpak_manifest (f : ManifestFile) : Except Crash Manifest :=
  match f.ext with
  | .yml => .ok (read_yaml_flatpak_manifest f)
  | .yaml => .ok (read_yaml_flatpak_manifest f)
  | .json => read_json_flatpak_manifest f

/-- Python `a or b` on the results of dict.get for string values: the
left operand wins unless it is None or the empty string. -/
def pyOrStr (a b : Option Str) : Option Str :=
  match a with
  | some v => if v.isEmpty then b else some v
  | none => b

/-- get_id_from_flatpak_manifest: manifest.get("app-id") or
manifest.get("id") when the parsed value is a dict, None otherwise. -/
def get_id_from_flatpak_manifest (f : ManifestFile) :
    Except Crash (Option Str) :=
  (read_flatpak_manifest f).map fun m =>
    if m.isDict then pyOrStr m.appId m.idField else none

/-- detect_appid of merge.py over the glob-ordered candidate list
( *.yml files, then *.yaml, then *.json ): return the first candidate
whose declared id is truthy and equal to its own base name without the
extension, or (None, None); an uncaught exception from the JSON reader
aborts the scan. -/
def detect_appid : List ManifestFile → Except Crash (Option (Str × Str))
  | [] => .ok none
  | f :: fs =>
    match get_id_from_flatpak_manifest f with
    | .error e => .error e
    | .ok appid =>
      match appid with
      | some a =>
        if a.isEmpty = false ∧ f.stem = a then .ok (some (baseName f, a))
        else detect_appid fs
      | none => detect_appid fs

/-- The declared identifier of a candidate that does not crash the
reader: what get_id_from_flatpak_manifest returns on it. -/
def manifestId (f : ManifestFile) : Option Str :=
  match f.parse with
  | some m => if m.isDict then pyOrStr m.appId m.idField else none
  | none => none

/-- Modelled from the spec: a candidate is authoritative (self-named)
when its declared identifier is nonempty and equals its own file base
name without the extension. -/
def selfNamed (f : ManifestFile) : Bool :=
  match manifestId f with
  | some a => a.isEmpty = false ∧ f.stem = a
  | none => false

/-! ## Source acquisition (clone_pr_fork) -/

def openLit : Str := "open".toList

def closedLit : Str := "closed".toList

/-- External observations made by clone_pr_fork: the HEAD commit of the
fresh clone, and the live state and head SHA of the pull request as
re-fetched from GitHub after cloning. -/
structure CloneEnv where
  cloneHeadSha : Str
  prState : Str
  prHeadSha : Str
deriving DecidableEq

/-- clone_pr_fork of merge.py, given the approved head SHA from the
parsed command: the clone is returned only after the live PR state is
confirmed "open" and both the clone HEAD SHA and the live PR head SHA
equal the approved SHA; otherwise None. The returned clone is identified
by its HEAD SHA. -/
def clone_pr_fork (env : CloneEnv) (approved_head_sha : Str) : Option Str :=
  if env.prState ≠ openLit then none
  else if env.cloneHeadSha ≠ approved_head_sha ∨ env.prHeadSha ≠ approved_head_sha
    then none
  else some env.cloneHeadSha

/-! ## Destination provisioning (create_new_flathub_repo) -/

/-- Failure switches of the GitHub calls made while provisioning:
whether org.get_repo raises a non-404 error, whether org.create_repo
raises, and whether repo.edit raises. -/
structure ProvisionEnv where
  getRepoNon404 : Bool
  createRaises : Bool
  editRaises : Bool
deriving DecidableEq

/-- get_repo_in_org: the repository when it exists and the lookup does
not raise; None on a 404 (absent repository) and on any other GithubException
(both are caught and logged). -/
def get_repo_in_org (world : List Str) (env : ProvisionEnv) (repo_name : Str) :
    Option Str :=
  if env.getRepoNon404 then none
  else if repo_name ∈ world then some repo_name
  else none

def repo_exists_in_org (world : List Str) (env : ProvisionEnv)
    (repo_name : Str) : Bool :=
  (get_repo_in_org world env repo_name).isSome

/-- create_new_flathub_repo of merge.py over the set `world` of
repository names existing in the organization. Returns the created
repository handle (or None) together with the updated world:
- if the existence probe sees the repository, return None, create nothing;
- otherwise attempt org.create_repo: GitHub rejects a duplicate name, and
  the GithubException is caught, returning None with nothing created;
- a create_repo failure leaves the world unchanged; a failure of the
  subsequent repo.edit is caught and returns None although the repository
  was already created. -/
def create_new_flathub_repo (world : List Str) (env : ProvisionEnv)
    (repo_name : Str) : Option Str × List Str :=
  if repo_exists_in_org world env repo_name then (none, world)
  else if repo_name ∈ world then (none, world)
  else if env.createRaises then (none, world)
  else if env.editRaises then (none, repo_name :: world)
  else (some repo_name, repo_name :: world)

/-! ## Publication (set_protected_branch loop and finalize_new_flathub_repo) -/

/-- The six branch patterns protected by finalize_new_flathub_repo, in
program order. -/
def protectedBranchPatterns : List Str :=
  ["master".toList, "main".toList, "stable".toList,
   "branch/*".toList, "beta".toList, "beta/*".toList]

/-- Run the protection loop over a list of patterns with an oracle for
the outcome of each set_protected_branch call. The loop body has no
try/except: the first call that raises stops the loop and the exception
escapes. Returns the attempted patterns and the escaping exception. -/
def runProtectLoopAux (oracle : Str → Except Str Unit) :
    List Str → List Str × Option Str
  | [] => ([], none)
  | p :: ps =>
    match oracle p with
    | .ok _ =>
      match runProtectLoopAux oracle ps with
      | (att, e) => (p :: att, e)
    | .error e => ([p], some e)

def runProtectLoop (oracle : Str → Except Str Unit) : List Str × Option Str :=
  runProtectLoopAux oracle protectedBranchPatterns

/-- External observations of finalize_new_flathub_repo: whether the git
push subprocess exited zero, the outcome of each set_protected_branch
call, and the head SHA and protected flag of the destination branch as
re-fetched after the push. -/
structure FinalizeEnv where
  pushOk : Bool
  protectOracle : Str → Except Str Unit
  remoteHeadSha : Str
  remoteProtected : Bool

/-- finalize_new_flathub_repo of merge.py: add the remote, push (failure
returns False), remove flathubbot, protect the six patterns (an
exception escapes uncaught), then re-fetch the destination branch and
require its head SHA to equal the approved SHA and its protected flag to
be True. -/
def finalize_new_flathub_repo (env : FinalizeEnv) (approved_pr_sha : Str) :
    Except Str Bool :=
  if env.pushOk = false then .ok false
  else
    match (runProtectLoop env.protectOracle).2 with
    | some e => .error e
    | none =>
      if env.remoteHeadSha ≠ approved_pr_sha then .ok false
      else if env.remoteProtected = false then .ok false
      else .ok true

/-! ## Access grants (add_all_collaborators) -/

def kdeNs : Str := "org.kde.".toList

def gnomeNs : Str := "org.gnome.".toList

def tmTeam : Str := "trusted-maintainers".toList

def kdeTeam : Str := "KDE".toList

def gnomeTeam : Str := "GNOME".toList

/-- The teams granted push permission by add_all_collaborators, from the
if/elif over the repository name. -/
def teams_to_add (repo_name : Str) : List Str :=
  if startsWith kdeNs repo_name then [tmTeam, kdeTeam]
  else if startsWith gnomeNs repo_name ∧ repo_name.count '.' = 2 then
    [tmTeam, gnomeTeam]
  else [tmTeam]

/-- One grant performed by add_all_collaborators. -/
inductive Grant
  | user (login : Str)
  | team (slug : Str)
deriving DecidableEq

/-- Execute grants in program order; the first call that raises a
GithubException is caught by the surrounding try and the function
returns False, keeping the grants already performed. -/
def runGrants (fails : Grant → Bool) : List Grant → List Grant × Bool
  | [] => ([], true)
  | g :: gs =>
    if fails g then ([], false)
    else
      match runGrants fails gs with
      | (done, ok) => (g :: done, ok)

/-- add_all_collaborators of merge.py: add each collaborator with push
permission, then each team of teams_to_add, aborting on the first
GithubException. Returns the grants performed and the success flag. -/
def add_all_collaborators (fails : Grant → Bool) (repo_name : Str)
    (collaborators : List Str) : List Grant × Bool :=
  runGrants fails
    (collaborators.map Grant.user ++ (teams_to_add repo_name).map Grant.team)

/-! ## Closure (close_pr) -/

/-- A mutation of the review request performed by close_pr. -/
inductive PrMutation
  | setLabels
  | comment
  | close
  | lock
deriving DecidableEq

/-- Failure switches of the GitHub calls made by close_pr, and the lock
state of the associated issue. -/
structure CloseEnv where
  labelRaises : Bool
  commentRaises : Bool
  editRaises : Bool
  getIssueRaises : Bool
  issueLocked : Bool
  lockRaises : Bool
deriving DecidableEq

/-- close_pr of merge.py: label, comment, close, then lock the issue if
it was found and is not already locked; the first GithubException is
caught and returns False with the mutations already performed kept (a
failure of get_issue_from_pr is caught inside it and merely skips the
lock). -/
def close_pr (env : CloseEnv) : List PrMutation × Bool :=
  if env.labelRaises then ([], false)
  else if env.commentRaises then ([.setLabels], false)
  else if env.editRaises then ([.setLabels, .comment], false)
  else if env.getIssueRaises then ([.setLabels, .comment, .close], true)
  else if env.issueLocked then ([.setLabels, .comment, .close], true)
  else if env.lockRaises then ([.setLabels, .comment, .close], false)
  else ([.setLabels, .comment, .close, .lock], true)

/-! ## Orchestrator (main) -/

def createdLit : Str := "created".toList

/-- The parts of the GitHub event payload that main reads (a well-formed
issue_comment event); `none` models an empty or unreadable payload. -/
structure EventData where
  action : Str
  issueIsPr : Bool
  commentBody : Str
  commentUser : Str
  issueNumber : Nat
deriving DecidableEq

/-- is_valid_event of merge.py: the event is nonempty, its action is
"created" and its issue carries a pull_request marker. -/
def is_valid_event : Option EventData → Bool
  | none => false
  | some ev => ev.action = createdLit ∧ ev.issueIsPr

/-- An externally visible side effect of one invocation, beyond logging
and the ephemeral working directory. -/
inductive Effect
  | repoCreated (name : Str)
  | pushed
  | removedBot
  | protectAttempt (pattern : Str)
  | grant (g : Grant)
  | pr (m : PrMutation)
deriving DecidableEq

/-- The side effects of finalize_new_flathub_repo: nothing remote when
the push failed, otherwise the push, the flathubbot removal and the
branch protection attempts actually made. -/
def finalizeEffects (env : FinalizeEnv) : List Effect :=
  if env.pushOk = false then []
  else .pushed :: .removedBot ::
    (runProtectLoop env.protectOracle).1.map Effect.protectAttempt

/-- How one invocation ends: a process exit code, or an uncaught
exception unwinding out of main. -/
inductive MainOutcome
  | exit (code : Nat)
  | crash
deriving DecidableEq

structure MainResult where
  outcome : MainOutcome
  effects : List Effect
  closureInvoked : Bool
deriving DecidableEq

/-- Everything the external world answers during one invocation of
main, in the order the program asks. -/
structure MainEnv where
  token : Str
  event : Option EventData
  prAuthor : Str
  authorized : Bool
  cloneEnv : CloneEnv
  manifestFiles : List ManifestFile
  existingRepos : List Str
  provisionEnv : ProvisionEnv
  finalizeEnv : FinalizeEnv
  grantFails : Grant → Bool
  prStateBeforeClose : Str
  closeEnv : CloseEnv
  prStateAfterClose : Str

/-- main of merge.py (named mainFn since Lean reserves main) as a pure transition on the environment: token and
event validation, command parsing, authorization, source acquisition,
appid detection, destination provisioning, publication, access grants,
the open-state check, closure, and the closed-state check, with exit
code 1 on the first failing step. The effect trace records external
side effects; closureInvoked records whether close_pr was called. -/
def mainFn (env : MainEnv) : MainResult :=
  if env.token.isEmpty then ⟨.exit 1, [], false⟩
  else match env.event with
  | none => ⟨.exit 1, [], false⟩
  | some ev =>
    if (ev.action = createdLit ∧ ev.issueIsPr) = false then ⟨.exit 1, [], false⟩
    else match parse_merge_command ev.commentBody with
    | (some _branch, some sha, some colbs) =>
      if env.authorized = false then ⟨.exit 1, [], false⟩
      else match clone_pr_fork env.cloneEnv sha with
      | none => ⟨.exit 1, [], false⟩
      | some _clone =>
        match detect_appid env.manifestFiles with
        | .error _ => ⟨.crash, [], false⟩
        | .ok none => ⟨.exit 1, [], false⟩
        | .ok (some (_mf, appid)) =>
          match create_new_flathub_repo env.existingRepos env.provisionEnv appid with
          | (repoOpt, world) =>
            let createEff : List Effect :=
              if appid ∈ world ∧ appid ∉ env.existingRepos then
                [.repoCreated appid] else []
            match repoOpt with
            | none => ⟨.exit 1, createEff, false⟩
            | some _repo =>
              let fEff := finalizeEffects env.finalizeEnv
              match finalize_new_flathub_repo env.finalizeEnv sha with
              | .error _ => ⟨.crash, createEff ++ fEff, false⟩
              | .ok false => ⟨.exit 1, createEff ++ fEff, false⟩
              | .ok true =>
                match add_all_collaborators env.grantFails appid
                    (colbs ++ [env.prAuthor]) with
                | (grants, grantOk) =>
                  let gEff := grants.map Effect.grant
                  if grantOk = false then
                    ⟨.exit 1, createEff ++ fEff ++ gEff, false⟩
                  else if env.prStateBeforeClose ≠ openLit then
                    ⟨.exit 1, createEff ++ fEff ++ gEff, false⟩
                  else
                    match close_pr env.closeEnv with
                    | (muts, closeOk) =>
                      let cEff := muts.map Effect.pr
                      if closeOk = false then
                        ⟨.exit 1, createEff ++ fEff ++ gEff ++ cEff, true⟩
                      else if env.prStateAfterClose ≠ closedLit then
                        ⟨.exit 1, createEff ++ fEff ++ gEff ++ cEff, true⟩
                      else ⟨.exit 0, createEff ++ fEff ++ gEff ++ cEff, true⟩
    | _ => ⟨.exit 1, [], false⟩

/-! ## Helper predicates and concrete environments -/

/-- No mutation of the review request occurs in the effect list. -/
def prFree (l : List Effect) : Prop := ∀ m : PrMutation, Effect.pr m ∉ l

/-- The provisioning call actually created the repository: the name was
absent before and present after. -/
def didCreate (world : List Str) (env : ProvisionEnv) (repo_name : Str) :
    Prop :=
  repo_name ∉ world ∧ repo_name ∈ (create_new_flathub_repo world env repo_name).2

def sha40A : Str := List.replicate 40 'a'

def sha40B : Str := List.replicate 40 'b'

/-- A protection oracle for which every set_protected_branch call
succeeds. -/
def okOracle : Str → Except Str Unit := fun _ => .ok ()

/-- A protection oracle whose call for the "master" pattern raises. -/
def failOnMaster : Str → Except Str Unit :=
  fun p => if p = "master".toList then .error "boom".toList else .ok ()

def finalizeEnvFailMaster : FinalizeEnv :=
  ⟨true, failOnMaster, sha40A, true⟩

/-- A publication environment where the push subprocess succeeded but the
re-fetched destination branch head differs from the approved SHA. -/
def finalizeEnvPostMismatch : FinalizeEnv :=
  ⟨true, okOracle, sha40B, true⟩

def pEnvOk : ProvisionEnv := ⟨false, false, false⟩

/-- A self-named JSON manifest file for org.gnome.App. -/
def fileGnome : ManifestFile :=
  ⟨"org.gnome.App".toList, .json, some ⟨true, some "org.gnome.App".toList, none⟩⟩

/-- A YAML manifest whose declared id differs from its base name. -/
def fileMismatch : ManifestFile :=
  ⟨"com.a.One".toList, .yml, some ⟨true, some "com.a.Two".toList, none⟩⟩

/-- A self-named YAML manifest file. -/
def fileSelf : ManifestFile :=
  ⟨"com.a.Two".toList, .yaml, some ⟨true, none, some "com.a.Two".toList⟩⟩

/-- A baseline invocation environment: valid token and event, parseable
command, authorized commenter, agreeing SHAs, a self-named manifest, an
organization without the target repository, and every external call
succeeding. -/
def envBase : MainEnv :=
  ⟨"t".toList,
   some ⟨createdLit, true, "/merge head=".toList ++ sha40A, "rev".toList, 7⟩,
   "auth".toList, true, ⟨sha40A, openLit, sha40A⟩, [fileGnome], [],
   pEnvOk, ⟨true, okOracle, sha40A, true⟩, fun _ => false, openLit,
   ⟨false, false, false, false, false, false⟩, closedLit⟩

/-- envBase, except the destination branch head observed after the push
differs from the approved SHA: publication fails after a reported-good
push. -/
def envC4 : MainEnv :=
  { envBase with finalizeEnv := ⟨true, okOracle, sha40B, true⟩ }

/-- envBase, except the destination repository already exists in the
organization when provisioning runs. -/
def envC10 : MainEnv :=
  { envBase with existingRepos := ["org.gnome.App".toList] }

/-! ## Helper lemmas -/

lemma takeHex40_shape (s sha rest : Str) (h : takeHex40 s = some (sha, rest)) :
    sha.length = 40 ∧ sha.all isHexChar = true := by
  unfold takeHex40 at h
  split at h
  · rename_i hcond
    simp only [Option.some.injEq, Prod.mk.injEq] at h
    obtain ⟨rfl, rfl⟩ := h
    exact ⟨hcond.1, hcond.2⟩
  · exact absurd h (by simp)

lemma matchMergeRegex_sha_shape (c : Str) (g1 : Option Str) (sha g3 : Str)
    (h : matchMergeRegex c = some (g1, sha, g3)) :
    sha.length = 40 ∧ sha.all isHexChar = true := by
  simp only [matchMergeRegex, Option.bind_eq_some, Option.map_eq_some'] at h
  obtain ⟨s1, _, g1s2, _, s3, _, ⟨sha2, rest2⟩, hhex, g3a, _, heq⟩ := h
  simp only [Prod.mk.injEq] at heq
  obtain ⟨_, rfl, _⟩ := heq
  exact takeHex40_shape s3 sha2 rest2 hhex

lemma length_takeWhile_ge_of_take_all (p : Char → Bool) :
    ∀ (l : Str) (n : Nat), (l.take n).all p = true → (l.take n).length = n →
      n ≤ (l.takeWhile p).length := by
  intro l
  induction l with
  | nil =>
    intro n _ hlen
    simp at hlen
    omega
  | cons c t ih =>
    intro n hall hlen
    cases n with
    | zero => exact Nat.zero_le _
    | succ m =>
      simp only [List.take_succ_cons, List.all_cons, Bool.and_eq_true] at hall
      simp only [List.take_succ_cons, List.length_cons, Nat.succ.injEq] at hlen
      rw [List.takeWhile_cons_of_pos hall.1]
      simpa using ih m hall.2 hlen

lemma takeHex40_none_of_short (s : Str)
    (h : (s.takeWhile isHexChar).length < 40) : takeHex40 s = none := by
  unfold takeHex40
  split
  · rename_i hcond
    exact absurd (length_takeWhile_ge_of_take_all isHexChar s 40 hcond.2 hcond.1)
      (by omega)
  · rfl

lemma create_repo_existing (world : List Str) (env : ProvisionEnv)
    (repo_name : Str) (h : repo_name ∈ world) :
    create_new_flathub_repo world env repo_name = (none, world) := by
  unfold create_new_flathub_repo repo_exists_in_org get_repo_in_org
  by_cases hg : env.getRepoNon404 <;> simp [hg, h]

lemma runProtectLoopAux_stops_at_error (oracle : Str → Except Str Unit)
    (good : List Str) (p : Str) (rest : List Str) (e : Str)
    (hgood : ∀ q ∈ good, oracle q = .ok ())
    (hp : oracle p = .error e) :
    runProtectLoopAux oracle (good ++ p :: rest) = (good ++ [p], some e) := by
  induction good with
  | nil => simp [runProtectLoopAux, hp]
  | cons q qs ih =>
    have hq : oracle q = .ok () := hgood q (by simp)
    have h2 := ih (fun r hr => hgood r (by simp [hr]))
    simp only [List.cons_append, runProtectLoopAux, hq, List.append_eq, h2]

lemma kde_gnome_exclusive (s : Str) (h1 : startsWith kdeNs s = true)
    (h2 : startsWith gnomeNs s = true) : False := by
  unfold startsWith at h1 h2
  rw [decide_eq_true_iff] at h1 h2
  have hlen1 : kdeNs.length = 8 := by decide
  have hlen2 : gnomeNs.length = 10 := by decide
  rw [hlen1] at h1
  rw [hlen2] at h2
  have h3 : s.take 8 = (s.take 10).take 8 := by
    rw [List.take_take]
    norm_num
  rw [h1, h2] at h3
  exact absurd h3 (by decide)

lemma runGrants_all_ok (fails : Grant → Bool) (h : ∀ g, fails g = false) :
    ∀ gs : List Grant, runGrants fails gs = (gs, true) := by
  intro gs
  induction gs with
  | nil => rfl
  | cons g gs ih => simp [runGrants, h g, ih]

lemma get_id_no_crash (f : ManifestFile)
    (h : ¬(f.ext = FileExt.json ∧ f.parse = none)) :
    get_id_from_flatpak_manifest f = .ok (manifestId f) := by
  unfold get_id_from_flatpak_manifest read_flatpak_manifest
    read_json_flatpak_manifest read_yaml_flatpak_manifest manifestId
  cases hext : f.ext <;> cases hp : f.parse <;>
    simp_all [emptyDict, pyOrStr, Except.map]

lemma prFree_nil : prFree [] := by
  intro m h
  exact absurd h (List.not_mem_nil _)

lemma prFree_append (a b : List Effect) (ha : prFree a) (hb : prFree b) :
    prFree (a ++ b) := by
  intro m h
  rcases List.mem_append.mp h with h1 | h1
  · exact ha m h1
  · exact hb m h1

lemma prFree_finalizeEffects (env : FinalizeEnv) :
    prFree (finalizeEffects env) := by
  intro m h
  unfold finalizeEffects at h
  split at h
  · exact absurd h (List.not_mem_nil _)
  · simp at h

lemma prFree_map_grant (l : List Grant) : prFree (l.map Effect.grant) := by
  intro m h
  simp at h

lemma prFree_repoCreated (a : Str) : prFree [Effect.repoCreated a] := by
  intro m h
  simp at h

lemma prFree_createEff (b : Prop) [Decidable b] (a : Str) :
    prFree (if b then [Effect.repoCreated a] else []) := by
  split
  · exact prFree_repoCreated a
  · exact prFree_nil

lemma mainFn_closure_or_prFree (env : MainEnv) :
    (mainFn env).closureInvoked = true ∨ prFree (mainFn env).effects := by
  unfold mainFn
  repeat' split
  all_goals first
    | (left; rfl)
    | (right
       dsimp only
       repeat' first
         | apply prFree_append
         | exact prFree_nil
         | exact prFree_finalizeEffects _
         | exact prFree_map_grant _
         | exact prFree_createEff _ _
         | exact prFree_repoCreated _)

/-! ## Claim theorems -/

/-- Claim C1: clone_pr_fork returns a usable clone exactly when the live
review request state is "open" and the approved SHA from the parsed
command, the freshly cloned HEAD SHA, and the live review request head
SHA are pairwise equal; if any one of the three disagrees with the
others, no clone is returned. -/
theorem clone_pr_fork_requires_open_and_sha_agreement (env : CloneEnv)
    (approved_head_sha : Str) :
    (clone_pr_fork env approved_head_sha).isSome = true ↔
      (env.prState = openLit ∧ env.cloneHeadSha = approved_head_sha ∧
       env.prHeadSha = approved_head_sha ∧
       env.cloneHeadSha = env.prHeadSha) := by
  unfold clone_pr_fork
  by_cases h1 : env.prState = openLit <;>
    by_cases h2 : env.cloneHeadSha = approved_head_sha <;>
      by_cases h3 : env.prHeadSha = approved_head_sha <;>
        simp_all

/-- Claim C2: when the protection loop raises no exception,
finalize_new_flathub_repo returns False whenever the re-fetched
destination branch head SHA differs from the approved SHA or the branch
protected flag is not true, regardless of whether the push subprocess
reported success. -/
theorem finalize_fails_on_postcheck (env : FinalizeEnv)
    (approved_pr_sha : Str)
    (hloop : (runProtectLoop env.protectOracle).2 = none)
    (hbad : env.remoteHeadSha ≠ approved_pr_sha ∨
      env.remoteProtected = false) :
    finalize_new_flathub_repo env approved_pr_sha = .ok false := by
  unfold finalize_new_flathub_repo
  rw [hloop]
  by_cases hp : env.pushOk = false <;>
    by_cases hh : env.remoteHeadSha = approved_pr_sha <;>
      simp_all

/-- Claim C2 witness: push reported success, the re-fetched head differs
from the approved SHA, and the step returns False. -/
theorem finalize_fails_on_postcheck_witness :
    finalizeEnvPostMismatch.pushOk = true ∧
    finalize_new_flathub_repo finalizeEnvPostMismatch sha40A = .ok false :=
  ⟨rfl, finalize_fails_on_postcheck finalizeEnvPostMismatch sha40A rfl
    (Or.inl (by decide))⟩

/-- Claim C3 counterexample: when the set_protected_branch call for the
first pattern "master" raises, the loop attempts no other pattern (in
particular not "main") and the exception propagates out of
finalize_new_flathub_repo instead of being caught and logged. -/
theorem protect_loop_failure_counterexample :
    runProtectLoop failOnMaster = (["master".toList], some "boom".toList) ∧
    "main".toList ∉ (runProtectLoop failOnMaster).1 ∧
    finalize_new_flathub_repo finalizeEnvFailMaster sha40A
      = .error "boom".toList :=
  ⟨rfl, by decide, rfl⟩

/-- Claim C3 amended: the six protection patterns are attempted in order
only until the first set_protected_branch call that raises; that
exception stops the loop (the remaining patterns are not attempted) and
propagates uncaught out of finalize_new_flathub_repo. -/
theorem set_protected_branch_error_aborts_publication (env : FinalizeEnv)
    (approved_pr_sha : Str) (good : List Str) (p : Str) (rest : List Str)
    (e : Str)
    (hsplit : protectedBranchPatterns = good ++ p :: rest)
    (hgood : ∀ q ∈ good, env.protectOracle q = .ok ())
    (hp : env.protectOracle p = .error e)
    (hpush : env.pushOk = true) :
    finalize_new_flathub_repo env approved_pr_sha = .error e ∧
    runProtectLoop env.protectOracle = (good ++ [p], some e) := by
  have hloop : runProtectLoop env.protectOracle = (good ++ [p], some e) := by
    unfold runProtectLoop
    rw [hsplit,
      runProtectLoopAux_stops_at_error env.protectOracle good p rest e hgood hp]
  refine ⟨?_, hloop⟩
  unfold finalize_new_flathub_repo
  rw [hloop, hpush]
  simp

/-- Claim C3 amended witness: a failure on the first pattern aborts the
publication step with only "master" attempted. -/
theorem set_protected_branch_error_aborts_publication_witness :
    finalize_new_flathub_repo finalizeEnvFailMaster sha40A
        = .error "boom".toList ∧
    runProtectLoop finalizeEnvFailMaster.protectOracle
        = (["master".toList], some "boom".toList) :=
  set_protected_branch_error_aborts_publication finalizeEnvFailMaster sha40A
    [] ("master".toList)
    ["main".toList, "stable".toList, "branch/*".toList, "beta".toList,
     "beta/*".toList]
    ("boom".toList) rfl (by simp) rfl rfl

/-- Claim C4: any invocation that fails (exit 1 or an uncaught
exception) without the closure step having been invoked performs no
mutation of the review request: no label, no comment, no close, no
thread lock appears in the effect trace. -/
theorem mainFn_failure_before_closure_leaves_pr_untouched (env : MainEnv)
    (_hfail : (mainFn env).outcome = .exit 1 ∨ (mainFn env).outcome = .crash)
    (hclo : (mainFn env).closureInvoked = false) :
    ∀ m : PrMutation, Effect.pr m ∉ (mainFn env).effects := by
  rcases mainFn_closure_or_prFree env with h | h
  · rw [h] at hclo
    exact absurd hclo (by simp)
  · exact h

/-- Claim C4 witness: a run failing at the publication post-check exits
with code 1 before closure and its trace holds no close mutation. -/
theorem mainFn_failure_before_closure_leaves_pr_untouched_witness :
    Effect.pr PrMutation.close ∉ (mainFn envC4).effects :=
  mainFn_failure_before_closure_leaves_pr_untouched envC4 (Or.inl rfl) rfl
    PrMutation.close

/-- Claim C5: provisioning is idempotent: when the repository name
already exists the call creates nothing and returns None rather than
raising, a call after a successful creation returns None, and two
consecutive calls for the same name never both create. -/
theorem create_new_flathub_repo_idempotent (world : List Str)
    (e1 e2 : ProvisionEnv) (repo_name : Str) :
    (repo_name ∈ world →
      create_new_flathub_repo world e1 repo_name = (none, world)) ∧
    (didCreate world e1 repo_name →
      create_new_flathub_repo (create_new_flathub_repo world e1 repo_name).2
          e2 repo_name
        = (none, (create_new_flathub_repo world e1 repo_name).2)) ∧
    ¬(didCreate world e1 repo_name ∧
      didCreate (create_new_flathub_repo world e1 repo_name).2 e2 repo_name) := by
  refine ⟨create_repo_existing world e1 repo_name, ?_, ?_⟩
  · intro hd
    exact create_repo_existing _ e2 repo_name hd.2
  · rintro ⟨⟨_, h2⟩, ⟨h3, _⟩⟩
    exact h3 h2

/-- Claim C5 witness: after creating org.x.App in an empty organization,
a second provisioning call for the same name returns None and creates
nothing. -/
theorem create_new_flathub_repo_idempotent_witness :
    create_new_flathub_repo
        (create_new_flathub_repo [] pEnvOk ("org.x.App".toList)).2 pEnvOk
        ("org.x.App".toList)
      = (none, (create_new_flathub_repo [] pEnvOk ("org.x.App".toList)).2) :=
  (create_new_flathub_repo_idempotent [] pEnvOk pEnvOk
    ("org.x.App".toList)).2.1
    (by unfold didCreate; exact ⟨by decide, by decide⟩)

/-- Claim C6: if no candidate crashes the JSON reader, detect_appid
returns exactly the first candidate (in scan order) whose base file name
without the extension equals its declared truthy identifier, and
(None, None) when no candidate matches or there are no candidates; a
candidate whose declared identifier differs from its base name is never
returned. -/
theorem detect_appid_returns_first_self_named (files : List ManifestFile)
    (h : ∀ f ∈ files, ¬(f.ext = FileExt.json ∧ f.parse = none)) :
    detect_appid files
      = .ok ((files.find? selfNamed).map fun f => (baseName f, f.stem)) := by
  induction files with
  | nil => rfl
  | cons f fs ih =>
    have hf := h f (by simp)
    have hfs : ∀ g ∈ fs, ¬(g.ext = FileExt.json ∧ g.parse = none) :=
      fun g hg => h g (by simp [hg])
    rw [detect_appid, get_id_no_crash f hf]
    cases hid : manifestId f with
    | none =>
      have hsn : selfNamed f = false := by
        unfold selfNamed
        rw [hid]
      rw [List.find?_cons_of_neg _ (by simp [hsn]), ih hfs]
    | some a =>
      by_cases hcheck : a.isEmpty = false ∧ f.stem = a
      · have hsn : selfNamed f = true := by
          unfold selfNamed
          rw [hid]
          simp [hcheck.1, hcheck.2]
        rw [List.find?_cons_of_pos _ hsn]
        simp [hcheck, hcheck.2]
      · have hsn : selfNamed f = false := by
          unfold selfNamed
          rw [hid]
          simp only [decide_eq_false_iff_not]
          exact hcheck
        rw [List.find?_cons_of_neg _ (by simp [hsn])]
        simp only [hcheck, if_false]
        exact ih hfs

/-- Claim C6 witness: with a non-self-named candidate first, resolution
skips it and returns the later self-named candidate. -/
theorem detect_appid_returns_first_self_named_witness :
    detect_appid [fileMismatch, fileSelf]
      = .ok (some ("com.a.Two.yaml".toList, "com.a.Two".toList)) := by
  have h := detect_appid_returns_first_self_named [fileMismatch, fileSelf]
    (by decide)
  exact h.trans (by rfl)

/-- Claim C7 counterexample: a command whose head token consists of 41
hexadecimal characters does not fail to parse: the first 40 characters
are taken as the SHA and parsing succeeds. -/
theorem parse_accepts_41_hex_counterexample :
    parse_merge_command ("/merge head=".toList ++ List.replicate 41 'a')
      = (some masterLit, some (List.replicate 40 'a'), some []) := by
  decide

/-- Claim C7 amended: parsing either fails with all three outputs absent
or succeeds with a SHA output of exactly 40 hexadecimal characters (the
first 40 hexadecimal characters after "head="); and whenever the command
reaches the "head=" position with fewer than 40 hexadecimal characters
immediately following it (a shorter head token, or a non-hexadecimal
character within the first 40), parsing fails with all three outputs
absent — while characters beyond the first 40 flow into the trailing
group instead of failing the parse. -/
theorem parse_merge_command_sha_is_40_hex (c : Str) :
    (parse_merge_command c = (none, none, none) ∨
     ∃ branch sha colbs,
       parse_merge_command c = (some branch, some sha, some colbs) ∧
       sha.length = 40 ∧ sha.all isHexChar = true) ∧
    (∀ (s1 : Str) (g1 : Option Str) (s2 s3 : Str),
      dropLit mergeLit c = some s1 →
      matchAfterMerge s1 = some (g1, s2) →
      dropLit headEqLit s2 = some s3 →
      (s3.takeWhile isHexChar).length < 40 →
      parse_merge_command c = (none, none, none)) := by
  constructor
  · unfold parse_merge_command
    by_cases hs : startsWith mergeLit c = false
    · left
      simp [hs]
    · cases hm : matchMergeRegex c with
      | none =>
        left
        simp [hs, hm]
      | some g =>
        obtain ⟨g1, sha, g3⟩ := g
        right
        have hshape := matchMergeRegex_sha_shape c g1 sha g3 hm
        rw [if_neg hs]
        exact ⟨_, sha, findCollabs g3, rfl, hshape.1, hshape.2⟩
  · intro s1 g1 s2 s3 h1 h2 h3 hshort
    have htake : takeHex40 s3 = none := takeHex40_none_of_short s3 hshort
    have hm : matchMergeRegex c = none := by
      simp [matchMergeRegex, h1, h2, h3, htake]
    unfold parse_merge_command
    by_cases hs : startsWith mergeLit c = false
    · simp [hs]
    · simp [hs, hm]

/-- Claim C7 amended witness: a head token of only 39 hexadecimal
characters reaches the "head=" position and fails with all three
outputs absent. -/
theorem parse_merge_command_sha_is_40_hex_witness :
    parse_merge_command ("/merge head=".toList ++ List.replicate 39 'a')
      = (none, none, none) :=
  (parse_merge_command_sha_is_40_hex
      ("/merge head=".toList ++ List.replicate 39 'a')).2
    (" head=".toList ++ List.replicate 39 'a') none
    (" head=".toList ++ List.replicate 39 'a')
    (List.replicate 39 'a') rfl rfl rfl (by decide)

/-- Claim C8: with no grant call raising, add_all_collaborators succeeds
and grants the trusted-maintainers team always, the KDE team exactly
when the repository name starts with "org.kde.", and the GNOME team
exactly when the name starts with "org.gnome." and contains exactly two
dots. -/
theorem add_all_collaborators_team_policy (fails : Grant → Bool)
    (repo_name : Str) (collaborators : List Str)
    (h : ∀ g, fails g = false) :
    (add_all_collaborators fails repo_name collaborators).2 = true ∧
    Grant.team tmTeam ∈ (add_all_collaborators fails repo_name collaborators).1 ∧
    (Grant.team kdeTeam ∈ (add_all_collaborators fails repo_name collaborators).1
      ↔ startsWith kdeNs repo_name = true) ∧
    (Grant.team gnomeTeam ∈
        (add_all_collaborators fails repo_name collaborators).1
      ↔ (startsWith gnomeNs repo_name = true ∧ repo_name.count '.' = 2)) := by
  unfold add_all_collaborators
  rw [runGrants_all_ok fails h]
  unfold teams_to_add
  by_cases hk : startsWith kdeNs repo_name = true
  · have hg : ¬ startsWith gnomeNs repo_name = true :=
      fun hg => kde_gnome_exclusive repo_name hk hg
    simp [hk, hg, tmTeam, kdeTeam, gnomeTeam]
  · by_cases hg : startsWith gnomeNs repo_name = true ∧ repo_name.count '.' = 2
    · simp [hk, hg, tmTeam, kdeTeam, gnomeTeam]
    · simp [hk, hg, tmTeam, kdeTeam, gnomeTeam]

/-- Claim C8 witness: org.gnome.Foo receives the GNOME team grant while
org.gnome.Foo.Bar (three dots) does not. -/
theorem add_all_collaborators_team_policy_witness :
    Grant.team gnomeTeam ∈
      (add_all_collaborators (fun _ => false) ("org.gnome.Foo".toList)
        ["alice".toList]).1 ∧
    Grant.team gnomeTeam ∉
      (add_all_collaborators (fun _ => false) ("org.gnome.Foo.Bar".toList)
        []).1 := by
  have h1 := add_all_collaborators_team_policy (fun _ => false)
    ("org.gnome.Foo".toList) ["alice".toList] (fun _ => rfl)
  have h2 := add_all_collaborators_team_policy (fun _ => false)
    ("org.gnome.Foo.Bar".toList) [] (fun _ => rfl)
  refine ⟨h1.2.2.2.mpr (by decide), fun hm => ?_⟩
  exact absurd (h2.2.2.2.mp hm) (by decide)

/-- Claim C9: a candidate .json manifest that fails to parse crashes the
scan with an uncaught TypeError instead of being skipped — both when it
is the only candidate (a realizable directory, since the globs scan
yml and yaml files before json) and when later candidates would have
followed (they are never reached) — while a failing .yaml candidate is
tolerated and the scan continues to the next candidate. -/
theorem detect_appid_crashes_on_bad_json :
    detect_appid [⟨"bad".toList, .json, none⟩] = .error .typeError ∧
    detect_appid [⟨"bad".toList, .json, none⟩, fileSelf]
      = .error .typeError ∧
    detect_appid [⟨"bad".toList, .yaml, none⟩, fileSelf]
      = .ok (some ("com.a.Two.yaml".toList, "com.a.Two".toList)) :=
  ⟨rfl, rfl, rfl⟩

/-- Claim C10: when the detected appid already names an existing
repository in the organization, main exits with code 1, performs no
external side effect at all and never reaches the publication, grant or
closure steps. -/
theorem mainFn_aborts_when_repo_already_exists (env : MainEnv)
    (mf appid : Str)
    (hdetect : detect_appid env.manifestFiles = .ok (some (mf, appid)))
    (hexists : appid ∈ env.existingRepos) :
    mainFn env = ⟨.exit 1, [], false⟩ := by
  have hcreate :=
    create_repo_existing env.existingRepos env.provisionEnv appid hexists
  unfold mainFn
  repeat' split
  all_goals try rfl
  all_goals simp_all

/-- Claim C10 witness: a run that reaches provisioning with
org.gnome.App already present exits 1 with an empty effect trace. -/
theorem mainFn_aborts_when_repo_already_exists_witness :
    mainFn envC10 = ⟨.exit 1, [], false⟩ :=
  mainFn_aborts_when_repo_already_exists envC10
    ("org.gnome.App.json".toList) ("org.gnome.App".toList) rfl (by decide)
